import Mathlib

/-!
Verification of the antarctic-analytics weather cache and aggregation service.

The development shallowly embeds the Python sources:
  - `src/app/service.py` (AntartidaService: get_data, _aggregate, _avg,
    _avg_angle_deg, _to_output),
  - `src/app/database.py` (SQLiteRepository: upsert_measurements,
    has_fresh_fetch_window, get_measurements),
  - `src/app/aemet_client.py` (AemetClient: _request_data_items,
    fetch_station_data, fetch_station_inventory, _to_float),
  - `src/src/app/services/antarctic/math_utils.py` (avg, avg_angle_deg).

Modelling conventions:
  - A timezone-aware Python datetime is identified with its absolute instant,
    modelled as an `Int` (an arbitrary linear time scale).  `astimezone`
    preserves the instant, so it is the identity on instants; the calendar
    fields produced by `astimezone(MADRID_TZ)` are modelled by an abstract
    timezone structure `TZ` mapping instants to local calendar fields and back.
    The SQL comparisons on ISO-8601 timestamp strings are order-isomorphic to
    instant comparisons for the formats the repository writes, so they are
    modelled as `Int` comparisons.
  - Python floats are modelled as rationals; the transcendental functions of
    `math` used by the circular mean are an explicit parameter (`TrigModel`),
    instantiated where a concrete evaluation is needed with the exact
    IEEE-754 double values computed by CPython at the arguments reached.
  - `round(x, 3)` is modelled as decimal rounding half-to-even to 3 places.
  - SQLite tables are lists of typed rows; a write transaction is a list of
    statements executed on a connection whose uncommitted changes are only
    published to the store by the final commit.
-/

namespace AntarcticAnalytics

/-! ### Numeric helpers: rounding, Python modulo, scalar mean -/

/-- Decimal rounding of a rational to an integer, half to even
(the rounding used by Python `round`). -/
def roundHalfEven (q : ℚ) : Int :=
  let n := ⌊q⌋
  let frac := q - n
  if frac < 1/2 then n
  else if 1/2 < frac then n + 1
  else if n % 2 = 0 then n else n + 1

/-- Model of Python `round(x, 3)`: round to 3 decimal places, half to even. -/
def roundTo3 (q : ℚ) : ℚ := (roundHalfEven (q * 1000) : ℚ) / 1000

/-- Model of the Python float modulo operator `a % b` for positive `b`:
the result has the sign of `b` (floored division). -/
def pyMod (a b : ℚ) : ℚ := a - b * ⌊a / b⌋

/-- `AntartidaService._avg` (src/app/service.py lines 96-99), identical to
`avg` in src/src/app/services/antarctic/math_utils.py: drop absent values,
return the arithmetic mean of the rest rounded to 3 decimals, or absent when
no value is present. -/
def avg (values : List (Option ℚ)) : Option ℚ :=
  let real := values.filterMap id
  if real = [] then none else some (roundTo3 (real.sum / (real.length : ℚ)))

/-! ### Circular mean (`_avg_angle_deg`) over an explicit trig model -/

/-- The transcendental operations from `math` used by `_avg_angle_deg`,
kept abstract: `radians`, `cos`, `sin`, `atan2`. -/
structure TrigModel where
  radians : ℚ → ℚ
  cos : ℚ → ℚ
  sin : ℚ → ℚ
  atan2 : ℚ → ℚ → ℚ

/-- The float literal `3.141592653589793` appearing in the source. -/
def piLit : ℚ := 3141592653589793 / 1000000000000000

/-- `AntartidaService._avg_angle_deg` (src/app/service.py lines 101-112),
identical to `avg_angle_deg` in math_utils.py: drop absent values; sum the
unit vectors of the remaining angles; if both components are exactly zero
return absent; otherwise take `atan2`, convert to degrees via the literal
`3.141592653589793`, reduce modulo 360 and round to 3 decimals. -/
def avg_angle_deg (T : TrigModel) (values : List (Option ℚ)) : Option ℚ :=
  let angles := values.filterMap id
  if angles = [] then none
  else
    let x := (angles.map (fun a => T.cos (T.radians a))).sum
    let y := (angles.map (fun a => T.sin (T.radians a))).sum
    if x = 0 ∧ y = 0 then none
    else some (roundTo3 (pyMod (T.atan2 y x * 180 / piLit) 360))

/-- The IEEE-754 double value of CPython `math.radians(180.0)`, which equals
`math.pi` exactly. -/
def piDouble : ℚ := 3141592653589793 / 1000000000000000

/-- The IEEE-754 double value of CPython `math.sin(math.pi)`:
`1.2246467991473532e-16`, which is not zero. -/
def sinPiDouble : ℚ := 12246467991473532 / (10 ^ 32 : ℚ)

/-- The IEEE-754 double value of CPython `math.atan2(y, 0.0)` for `y > 0`:
`1.5707963267948966`. -/
def halfPiDouble : ℚ := 15707963267948966 / (10 ^ 16 : ℚ)

/-- The values the CPython IEEE-754 double implementations of `radians`,
`cos`, `sin`, `atan2` take at the arguments reached when `_avg_angle_deg`
is evaluated on the direction list `[0.0, 180.0]`:
`radians(0.0) = 0.0`, `radians(180.0) = math.pi`, `cos(0.0) = 1.0`,
`cos(math.pi) = -1.0`, `sin(0.0) = 0.0`,
`sin(math.pi) = 1.2246467991473532e-16` and
`atan2(1.2246467991473532e-16, 0.0) = 1.5707963267948966`. -/
def ieeeTrigAtZeroAnd180 : TrigModel where
  radians := fun q => q * piDouble / 180
  cos := fun q => if q = 0 then 1 else if q = piDouble then -1 else 0
  sin := fun q => if q = 0 then 0 else if q = piDouble then sinPiDouble else 0
  atan2 := fun y x => if 0 < y ∧ x = 0 then halfPiDouble else 0

/-! ### Data model (src/app/models, src/src/app/models/measurement.py) -/

/-- `TimeAggregation` enum: NONE, HOURLY, DAILY, MONTHLY. -/
inductive TimeAggregation
  | none
  | hourly
  | daily
  | monthly
deriving DecidableEq, Repr

/-- `MeasurementType` enum: TEMPERATURE, PRESSURE, SPEED, DIRECTION. -/
inductive MeasurementType
  | temperature
  | pressure
  | speed
  | direction
deriving DecidableEq, Repr, BEq

/-- `Station` enum: the two fixed Antarctic stations. -/
inductive Station
  | gabriel_de_castilla
  | juan_carlos_i
deriving DecidableEq, Repr

/-- `SourceMeasurement`: one canonical observation.  `measured_at_utc` is the
absolute instant; numeric quantities are optional rationals. -/
structure SourceMeasurement where
  station_name : String
  measured_at_utc : Int
  temperature_c : Option ℚ
  pressure_hpa : Option ℚ
  speed_mps : Option ℚ
  direction_deg : Option ℚ
  latitude : Option ℚ
  longitude : Option ℚ
  altitude_m : Option ℚ
deriving DecidableEq, Repr, Inhabited

/-- `OutputMeasurement`: the externally visible row produced by
`_to_output`.  The pydantic aliases are stationName, datetime, temperature,
pressure, speed, direction, latitude, longitude, altitude; `datetime_local`
is the instant of the local display timestamp. -/
structure OutputMeasurement where
  station_name : String
  datetime_local : Int
  temperature : Option ℚ
  pressure : Option ℚ
  speed : Option ℚ
  direction : Option ℚ
  latitude : Option ℚ
  longitude : Option ℚ
  altitude : Option ℚ
deriving DecidableEq, Repr

/-! ### Measurement Store (src/app/database.py) -/

/-- One row of the `measurements` table; primary key
`(station_id, measured_at_utc)`. -/
structure MRow where
  station_id : String
  station_name : String
  measured_at_utc : Int
  temperature_c : Option ℚ
  pressure_hpa : Option ℚ
  speed_mps : Option ℚ
  direction_deg : Option ℚ
  latitude : Option ℚ
  longitude : Option ℚ
  altitude_m : Option ℚ
  fetched_at_utc : Int
deriving DecidableEq, Repr

/-- One row of the `fetch_windows` table; primary key
`(station_id, start_utc, end_utc)`. -/
structure WRow where
  station_id : String
  start_utc : Int
  end_utc : Int
  fetched_at_utc : Int
deriving DecidableEq, Repr

/-- The persisted store: the two tables `get_data` touches. -/
structure Store where
  measurements : List MRow
  fetch_windows : List WRow
deriving DecidableEq, Repr

/-- Whether two measurement rows share the primary key
`(station_id, measured_at_utc)`. -/
def sameMKey (a b : MRow) : Bool :=
  a.station_id == b.station_id && a.measured_at_utc == b.measured_at_utc

/-- The `ON CONFLICT(station_id, measured_at_utc) DO UPDATE` clause of
`upsert_measurements` (src/app/database.py lines 133-143): the conflicting
stored row `old` is updated from the incoming row `m`; every field is
overwritten except latitude, longitude and altitude, which take
`COALESCE(excluded.value, stored.value)`. -/
def mergeMRow (old m : MRow) : MRow :=
  { station_id := old.station_id
    station_name := m.station_name
    measured_at_utc := old.measured_at_utc
    temperature_c := m.temperature_c
    pressure_hpa := m.pressure_hpa
    speed_mps := m.speed_mps
    direction_deg := m.direction_deg
    latitude := match m.latitude with | some v => some v | none => old.latitude
    longitude := match m.longitude with | some v => some v | none => old.longitude
    altitude_m := match m.altitude_m with | some v => some v | none => old.altitude_m
    fetched_at_utc := m.fetched_at_utc }

/-- `INSERT ... ON CONFLICT DO UPDATE` into the `measurements` table: update
the row with the same primary key if one exists, otherwise insert. -/
def upsertMRow (ms : List MRow) (m : MRow) : List MRow :=
  if ms.any (fun x => sameMKey x m) then
    ms.map (fun x => if sameMKey x m then mergeMRow x m else x)
  else ms ++ [m]

/-- Whether two fetch-window rows share the primary key
`(station_id, start_utc, end_utc)`. -/
def sameWKey (a b : WRow) : Bool :=
  a.station_id == b.station_id && a.start_utc == b.start_utc && a.end_utc == b.end_utc

/-- `INSERT ... ON CONFLICT DO UPDATE SET fetched_at_utc = excluded.fetched_at_utc`
into the `fetch_windows` table (src/app/database.py lines 162-170). -/
def upsertWRow (ws : List WRow) (w : WRow) : List WRow :=
  if ws.any (fun x => sameWKey x w) then
    ws.map (fun x => if sameWKey x w then { x with fetched_at_utc := w.fetched_at_utc } else x)
  else ws ++ [w]

/-- One SQL write statement of the upsert transaction. -/
inductive DbOp
  | insertMeasurement (m : MRow)
  | insertWindow (w : WRow)
deriving DecidableEq, Repr

/-- The effect of one write statement on a store. -/
def applyDbOp (st : Store) : DbOp → Store
  | .insertMeasurement m => { st with measurements := upsertMRow st.measurements m }
  | .insertWindow w => { st with fetch_windows := upsertWRow st.fetch_windows w }

/-- Apply a list of write statements in order. -/
def runOps (st : Store) (ops : List DbOp) : Store := ops.foldl applyDbOp st

/-- The measurements-table row built from a `SourceMeasurement` by the
parameter list of the INSERT in `upsert_measurements`
(src/app/database.py lines 145-160). -/
def toMRow (station_id : String) (now : Int) (r : SourceMeasurement) : MRow :=
  { station_id := station_id
    station_name := r.station_name
    measured_at_utc := r.measured_at_utc
    temperature_c := r.temperature_c
    pressure_hpa := r.pressure_hpa
    speed_mps := r.speed_mps
    direction_deg := r.direction_deg
    latitude := r.latitude
    longitude := r.longitude
    altitude_m := r.altitude_m
    fetched_at_utc := now }

/-- The write statements issued by `upsert_measurements`
(src/app/database.py lines 117-171): one measurement insert per row
(the `executemany`), then the fetch-window insert for exactly the
requested `(station_id, start_utc, end_utc)` range. -/
def upsertOps (station_id : String) (rows : List SourceMeasurement)
    (start_utc end_utc now : Int) : List DbOp :=
  rows.map (fun r => DbOp.insertMeasurement (toMRow station_id now r))
    ++ [DbOp.insertWindow ⟨station_id, start_utc, end_utc, now⟩]

/-- A SQLite connection holding a write transaction: `db` is the committed
store that other connections observe, `pending` is this connection's
uncommitted view.  The code opens the transaction implicitly with the first
write and commits once at the end; closing the connection without commit
(as happens when a statement raises) rolls the pending changes back. -/
structure Conn where
  db : Store
  pending : Store
deriving DecidableEq, Repr

/-- A statement executed on the connection: a write, or the final commit. -/
inductive SqlStmt
  | write (op : DbOp)
  | commit
deriving DecidableEq, Repr

/-- Execute one statement.  A write only changes the pending view; only
`commit` publishes the pending view to the observable store. -/
def stepStmt (c : Conn) : SqlStmt → Conn
  | .write op => { c with pending := applyDbOp c.pending op }
  | .commit => { db := c.pending, pending := c.pending }

/-- Execute a list of statements in order. -/
def runConn (c : Conn) (l : List SqlStmt) : Conn := l.foldl stepStmt c

/-- The statement sequence of the `upsert_measurements` transaction: all
writes, then one commit (src/app/database.py lines 125-171). -/
def upsertStmts (station_id : String) (rows : List SourceMeasurement)
    (start_utc end_utc now : Int) : List SqlStmt :=
  (upsertOps station_id rows start_utc end_utc now).map SqlStmt.write ++ [SqlStmt.commit]

/-- `SQLiteRepository.upsert_measurements`: the store as observed after the
transaction ran to completion. -/
def upsert_measurements (st : Store) (station_id : String)
    (rows : List SourceMeasurement) (start_utc end_utc now : Int) : Store :=
  (runConn ⟨st, st⟩ (upsertStmts station_id rows start_utc end_utc now)).db

/-- The fetch instant selected by `ORDER BY fetched_at_utc DESC LIMIT 1`:
the greatest element of the list, or nothing when the list is empty. -/
def maxFetchedAt : List Int → Option Int
  | [] => Option.none
  | f :: t =>
    match maxFetchedAt t with
    | Option.none => some f
    | Option.some m => some (max f m)

/-- `SQLiteRepository.has_fresh_fetch_window` (src/app/database.py lines
173-196): among the stored windows for the station whose range covers the
request (`start_utc <= ? AND end_utc >= ?`), take the most recently fetched
one (`ORDER BY fetched_at_utc DESC LIMIT 1`); return whether its fetch
instant is at least `min_fetched_at_utc`; `False` when there is none. -/
def has_fresh_fetch_window (st : Store) (station_id : String)
    (start_utc end_utc min_fetched_at_utc : Int) : Bool :=
  let covering := st.fetch_windows.filter
    (fun w => w.station_id == station_id && w.start_utc ≤ start_utc && end_utc ≤ w.end_utc)
  match maxFetchedAt (covering.map (fun w => w.fetched_at_utc)) with
  | Option.none => false
  | Option.some f => min_fetched_at_utc ≤ f

/-- Comparison of measurement rows by observation instant, for the
`ORDER BY measured_at_utc ASC` of `get_measurements`. -/
def mrowLE (a b : MRow) : Prop := a.measured_at_utc ≤ b.measured_at_utc

instance : DecidableRel mrowLE := fun a b => Int.decLe a.measured_at_utc b.measured_at_utc

/-- `SQLiteRepository.get_measurements` (src/app/database.py lines 198-225):
rows of the station inside the inclusive range, ascending by observation
instant, projected back to `SourceMeasurement`. -/
def get_measurements (st : Store) (station_id : String) (start_utc end_utc : Int) :
    List SourceMeasurement :=
  ((st.measurements.filter (fun m =>
      m.station_id == station_id && start_utc ≤ m.measured_at_utc
        && m.measured_at_utc ≤ end_utc)).insertionSort mrowLE).map
    (fun m =>
      { station_name := m.station_name
        measured_at_utc := m.measured_at_utc
        temperature_c := m.temperature_c
        pressure_hpa := m.pressure_hpa
        speed_mps := m.speed_mps
        direction_deg := m.direction_deg
        latitude := m.latitude
        longitude := m.longitude
        altitude_m := m.altitude_m })

/-! ### Local calendar and timezone model (Europe/Madrid via zoneinfo) -/

/-- The calendar fields of a timezone-aware local datetime: the fields that
`datetime.replace` manipulates, plus the `fold` disambiguator that `replace`
preserves. -/
structure LocalDT where
  year : Int
  month : Nat
  day : Nat
  hour : Nat
  minute : Nat
  second : Nat
  microsecond : Nat
  fold : Bool
deriving DecidableEq, Repr, Inhabited

/-- The timezone `MADRID_TZ`, kept abstract: `toLocal` gives the local
calendar fields of an instant (the effect of `astimezone(MADRID_TZ)`);
`toInstant` gives the absolute instant denoted by an aware local datetime
(used when aware datetimes are compared, hashed as dict keys, or converted
with `astimezone(UTC)`). -/
structure TZ where
  toLocal : Int → LocalDT
  toInstant : LocalDT → Int

/-- The `replace` truncation of `_aggregate` (src/app/service.py lines
71-76): top of hour for HOURLY, start of day for DAILY, first of month for
MONTHLY.  Unused for NONE. -/
def truncateLocal : TimeAggregation → LocalDT → LocalDT
  | .hourly, d => { d with minute := 0, second := 0, microsecond := 0 }
  | .daily, d => { d with hour := 0, minute := 0, second := 0, microsecond := 0 }
  | .monthly, d => { d with day := 1, hour := 0, minute := 0, second := 0, microsecond := 0 }
  | .none, d => d

/-- The grouping key of a row: the truncated local datetime, identified with
its absolute instant (Python dict keys and comparisons on aware datetimes
use exactly the instant). -/
def keyInstant (tz : TZ) (g : TimeAggregation) (r : SourceMeasurement) : Int :=
  tz.toInstant (truncateLocal g (tz.toLocal r.measured_at_utc))

/-- The aggregated bucket built for key `k` (src/app/service.py lines
80-93): constituents are the rows whose key is `k` in encounter order; the
displayed instant is the bucket key converted back with `astimezone(UTC)`;
scalars are averaged with `_avg`, the direction with `_avg_angle_deg`
(passed here as the abstract `A`); name and geospatial fields come from the
first constituent row. -/
def bucketOf (tz : TZ) (A : List (Option ℚ) → Option ℚ) (g : TimeAggregation)
    (rows : List SourceMeasurement) (k : Int) : SourceMeasurement :=
  let items := rows.filter (fun r => keyInstant tz g r == k)
  { station_name := items.headI.station_name
    measured_at_utc := k
    temperature_c := avg (items.map (fun i => i.temperature_c))
    pressure_hpa := avg (items.map (fun i => i.pressure_hpa))
    speed_mps := avg (items.map (fun i => i.speed_mps))
    direction_deg := A (items.map (fun i => i.direction_deg))
    latitude := items.headI.latitude
    longitude := items.headI.longitude
    altitude_m := items.headI.altitude_m }

/-- `AntartidaService._aggregate` (src/app/service.py lines 64-94): identity
for NONE; otherwise group rows by truncated local key and emit one bucket
per key in ascending key order (`sorted(grouped.items(), ...)` on aware
datetime keys sorts by instant). -/
def aggregate (tz : TZ) (A : List (Option ℚ) → Option ℚ) (g : TimeAggregation)
    (rows : List SourceMeasurement) : List SourceMeasurement :=
  if g = TimeAggregation.none then rows
  else
    (((rows.map (keyInstant tz g)).dedup).insertionSort (· ≤ ·)).map
      (bucketOf tz A g rows)

/-- `AntartidaService._to_output` (src/app/service.py lines 114-133): an
empty selection includes every quantity; a non-empty selection blanks the
quantities not selected; geospatial fields always pass through; the display
timestamp is the instant viewed in the local timezone. -/
def to_output (selected : List MeasurementType) (row : SourceMeasurement) :
    OutputMeasurement :=
  let include_all := selected.isEmpty
  { station_name := row.station_name
    datetime_local := row.measured_at_utc
    temperature :=
      if include_all || selected.contains MeasurementType.temperature
      then row.temperature_c else Option.none
    pressure :=
      if include_all || selected.contains MeasurementType.pressure
      then row.pressure_hpa else Option.none
    speed :=
      if include_all || selected.contains MeasurementType.speed
      then row.speed_mps else Option.none
    direction :=
      if include_all || selected.contains MeasurementType.direction
      then row.direction_deg else Option.none
    latitude := row.latitude
    longitude := row.longitude
    altitude := row.altitude_m }

/-! ### Retrieval Orchestrator (src/app/service.py get_data) -/

/-- The settings fields `get_data` consumes. -/
structure Settings where
  gabriel_station_id : String
  juan_station_id : String
  cache_freshness_seconds : Int
deriving DecidableEq, Repr

/-- `AntartidaService.station_id_for` (src/app/service.py lines 25-26). -/
def station_id_for (s : Settings) : Station → String
  | .gabriel_de_castilla => s.gabriel_station_id
  | .juan_carlos_i => s.juan_station_id

/-- The outcome of one `get_data` request: the response, the store as left
behind, and the list of remote fetches performed, each recorded as
`(start_utc, end_utc, station_id)` in the order issued. -/
structure GetDataResult where
  output : List OutputMeasurement
  store : Store
  fetch_calls : List (Int × Int × String)
deriving DecidableEq, Repr

/-- `AntartidaService.get_data` (src/app/service.py lines 28-62).
`adapter` is `AemetClient.fetch_station_data` viewed as the rows the remote
returns for a range and station; `now` is `datetime.utcnow()`.  The local
request bounds are aware datetimes, so `astimezone(UTC)` leaves their
instants unchanged.  On a fresh covering window the remote call and the
store write are skipped entirely; otherwise the adapter is called once for
the full requested range and the result is upserted with that exact range.
In both cases the response is read back from the store. -/
def get_data (settings : Settings) (tz : TZ) (A : List (Option ℚ) → Option ℚ)
    (adapter : Int → Int → String → List SourceMeasurement) (now : Int)
    (st : Store) (station : Station) (start_local end_local : Int)
    (g : TimeAggregation) (selected : List MeasurementType) : GetDataResult :=
  let station_id := station_id_for settings station
  let start_utc := start_local
  let end_utc := end_local
  let min_fetched_at_utc := now - settings.cache_freshness_seconds
  let has_fresh_cache :=
    has_fresh_fetch_window st station_id start_utc end_utc min_fetched_at_utc
  let st2 :=
    if has_fresh_cache then st
    else
      upsert_measurements st station_id (adapter start_utc end_utc station_id)
        start_utc end_utc now
  let calls :=
    if has_fresh_cache then [] else [(start_utc, end_utc, station_id)]
  let rows := get_measurements st2 station_id start_utc end_utc
  { output := (aggregate tz A g rows).map (to_output selected)
    store := st2
    fetch_calls := calls }

/-! ### Remote Source Adapter (src/app/aemet_client.py) -/

/-- A CPython float value: a finite double, modelled as an exact rational
with rounding dropped, or one of the non-finite values inf, -inf, nan
(all reachable here: the JSON decoder yields them for 1e999, -1e999 and
NaN, and `float(str)` parses their spellings). -/
inductive PyFloatVal
  | finite (q : ℚ)
  | inf
  | neginf
  | nan
deriving DecidableEq, Repr

/-- A Python value as it can reach `AemetClient._to_float`: `None`, a
string, an int (arbitrary precision), a float (finite or not), or some
other non-coercible object. -/
inductive PyVal
  | pynone
  | pystr (s : String)
  | pyint (n : Int)
  | pyfloat (x : PyFloatVal)
  | pyobj
deriving DecidableEq, Repr

/-- The exceptions the builtin `float(...)` can raise: TypeError and
ValueError, which `_to_float` catches, and OverflowError — raised for an
integer beyond the double range — which it does not. -/
inductive PyExc
  | typeError
  | valueError
  | overflowError
deriving DecidableEq, Repr

/-- ASCII decimal digit test. -/
def isDig (c : Char) : Bool := 48 ≤ c.toNat && c.toNat ≤ 57

/-- Whitespace test for the stripping `float(str)` performs. -/
def isWs (c : Char) : Bool := c == ' ' || c == '\t' || c == '\n' || c == '\r'

/-- The natural number denoted by a digit string. -/
def digitsToNat (ds : List Char) : Nat :=
  ds.foldl (fun acc c => acc * 10 + (c.toNat - 48)) 0

/-- Consume a maximal run of the CPython numeric-literal digit grammar —
digits with single underscores allowed only between digits — returning the
digits with the underscores removed, and the unconsumed remainder.  An
underscore not both preceded and followed by a digit stays in the
remainder, which makes the surrounding parse reject the literal, exactly
as `float("1_")`, `float("1__2")` or `float("1_.5")` raise ValueError. -/
def takeDigitsU : List Char → List Char × List Char
  | [] => ([], [])
  | c :: '_' :: d :: rest2 =>
    if isDig c then
      if isDig d then
        let p := takeDigitsU (d :: rest2)
        (c :: p.1, p.2)
      else ([c], '_' :: d :: rest2)
    else ([], c :: '_' :: d :: rest2)
  | c :: rest =>
    if isDig c then
      let p := takeDigitsU rest
      (c :: p.1, p.2)
    else ([], c :: rest)

/-- Parse the exponent tail after `e`/`E`: optional sign then at least one
digit (underscores between digits allowed), and nothing else. -/
def parseExpTail (t : List Char) : Option Int :=
  let signed : Bool × List Char :=
    match t with
    | '+' :: u => (false, u)
    | '-' :: u => (true, u)
    | u => (false, u)
  let p := takeDigitsU signed.2
  if p.1 ≠ [] ∧ p.2 = [] then
    some (if signed.1 then -(digitsToNat p.1 : Int) else (digitsToNat p.1 : Int))
  else none

/-- The pieces of a parsed numeric literal: integer-part digits,
fractional-part digits, exponent. -/
structure NumLit where
  intDigits : List Char
  fracDigits : List Char
  expo : Int
deriving DecidableEq, Repr

/-- The numeric-literal part of `float(str)` after the optional sign:
digits with an optional fractional part (at least one digit overall,
single underscores between digits) and an optional `e`/`E` exponent. -/
def parseNumLit (cs : List Char) : Option NumLit :=
  let ipr := takeDigitsU cs
  let fpr : List Char × List Char :=
    match ipr.2 with
    | '.' :: t => takeDigitsU t
    | t => ([], t)
  if ipr.1 = [] ∧ fpr.1 = [] then none
  else
    match fpr.2 with
    | [] => some ⟨ipr.1, fpr.1, 0⟩
    | 'e' :: t => (parseExpTail t).map (fun k => ⟨ipr.1, fpr.1, k⟩)
    | 'E' :: t => (parseExpTail t).map (fun k => ⟨ipr.1, fpr.1, k⟩)
    | _ => none

/-- The exact rational value of a parsed numeric literal; rounding to the
nearest double is dropped under the declared convention. -/
def numLitVal (L : NumLit) : ℚ :=
  ((digitsToNat L.intDigits : ℚ) +
      (digitsToNat L.fracDigits : ℚ) / ((10 : ℚ) ^ L.fracDigits.length)) *
    (10 : ℚ) ^ L.expo

/-- The supremum `2 ^ 1024` of the magnitudes representable as IEEE-754
doubles.  The half-ulp refinement of the overflow boundary is dropped
along with the rest of rounding. -/
def doubleRange : ℚ := 2 ^ 1024

/-- Overflow behavior of the C `strtod` underlying `float(str)`: a parsed
magnitude at or beyond the double range becomes the corresponding infinity
— `float("1e999")` is inf, with no error. -/
def clampDouble (q : ℚ) : PyFloatVal :=
  if doubleRange ≤ q then PyFloatVal.inf
  else if q ≤ -doubleRange then PyFloatVal.neginf
  else PyFloatVal.finite q

/-- Model of the builtin `float(str)`: strip surrounding whitespace, take
an optional sign, then either a case-insensitive `inf`, `infinity` or
`nan`, or a numeric literal clamped to the double range.  Anything else
fails to parse (the ValueError case). -/
def parsePyFloat (s : String) : Option PyFloatVal :=
  let cs := (((s.toList.dropWhile isWs).reverse).dropWhile isWs).reverse
  let signed : Bool × List Char :=
    match cs with
    | '+' :: t => (false, t)
    | '-' :: t => (true, t)
    | t => (false, t)
  let neg := signed.1
  let low := signed.2.map Char.toLower
  if low = "inf".toList ∨ low = "infinity".toList then
    some (if neg then PyFloatVal.neginf else PyFloatVal.inf)
  else if low = "nan".toList then some PyFloatVal.nan
  else
    (parseNumLit signed.2).map
      (fun L => clampDouble (if neg then -(numLitVal L) else numLitVal L))

instance {ε α : Type} [DecidableEq ε] [DecidableEq α] : DecidableEq (Except ε α) :=
  fun a b =>
    match a, b with
    | .ok x, .ok y =>
      if h : x = y then isTrue (congrArg Except.ok h)
      else isFalse (fun hc => h (Except.ok.inj hc))
    | .error e, .error f =>
      if h : e = f then isTrue (congrArg Except.error h)
      else isFalse (fun hc => h (Except.error.inj hc))
    | .ok _, .error _ => isFalse (fun hc => Except.noConfusion hc)
    | .error _, .ok _ => isFalse (fun hc => Except.noConfusion hc)

/-- The builtin `float(value)` as called by `_to_float`: an int within the
double range coerces and an int beyond it raises OverflowError; a float —
finite or not — passes through; a string parses by `parsePyFloat` or
raises ValueError; `None` and non-coercible objects raise TypeError. -/
def pyFloatOf : PyVal → Except PyExc PyFloatVal
  | .pynone => .error .typeError
  | .pystr s =>
    match parsePyFloat s with
    | some x => .ok x
    | Option.none => .error .valueError
  | .pyint n =>
    if 2 ^ 1024 ≤ n ∨ n ≤ -(2 ^ 1024) then .error .overflowError
    else .ok (.finite (n : ℚ))
  | .pyfloat x => .ok x
  | .pyobj => .error .typeError

/-- `AemetClient._to_float` (src/app/aemet_client.py lines 125-132):
`None` and the empty string map to absent; otherwise `float(value)` is
attempted with only TypeError and ValueError caught and mapped to absent;
a successful conversion is returned as is, non-finite values included, and
an OverflowError escapes uncaught. -/
def to_float (v : PyVal) : Except PyExc (Option PyFloatVal) :=
  if v = PyVal.pynone ∨ v = PyVal.pystr "" then .ok Option.none
  else
    match pyFloatOf v with
    | .ok x => .ok (some x)
    | .error PyExc.typeError => .ok Option.none
    | .error PyExc.valueError => .ok Option.none
    | .error PyExc.overflowError => .error PyExc.overflowError

/-- A JSON value as it appears in the `estado` and `descripcion` fields of
the AEMET metadata payload. -/
inductive JVal
  | jnull
  | jint (n : Int)
  | jstr (s : String)
  | jother
deriving DecidableEq, Repr

/-- Python `str(...)` on such a value (`str(None)` is the text `None`). -/
def pyStr : JVal → String
  | .jnull => "None"
  | .jint n => toString n
  | .jstr s => s
  | .jother => "object"

/-- Python truthiness of such a value (used by `if descripcion:`). -/
def pyTruthy : JVal → Bool
  | .jnull => false
  | .jint n => n != 0
  | .jstr s => s ≠ ""
  | .jother => true

/-- Whether the character list `needle` occurs contiguously in `hay`. -/
def containsSub (hay needle : List Char) : Bool :=
  match hay with
  | [] => needle.isPrefixOf []
  | _ :: t => needle.isPrefixOf hay || containsSub t needle

/-- Python `descripcion.lower()` restricted to the ASCII mapping relevant to
the sentinel text. -/
def lowerStr (s : String) : List Char := s.toList.map Char.toLower

/-- The metadata payload as a JSON object: the transient data URL under
`datos` (absent when the key is missing), and the `estado` / `descripcion`
fields (`jnull` when missing). -/
structure MetaPayload where
  datos : Option String
  estado : JVal
  descripcion : JVal
deriving DecidableEq, Repr

/-- The outcome of the metadata GET, from the point of view of
`_request_data_items`: an HTTP error status, invalid JSON, a non-object
body, or a parsed payload. -/
inductive MetaResp
  | httpError (code : Nat)
  | badJson
  | notDict
  | ok (p : MetaPayload)
deriving DecidableEq, Repr

/-- The outcome of the follow-up GET on the data URL. -/
inductive DataResp (α : Type)
  | httpError (code : Nat)
  | badJson
  | notList
  | ok (items : List α)
deriving DecidableEq, Repr

/-- Python `if not data_url:` — true when `datos` is missing or empty. -/
def dataUrlMissing (p : MetaPayload) : Bool :=
  match p.datos with
  | Option.none => true
  | Option.some u => u == ""

/-- The `"no hay datos"` sentinel test of `_request_data_items`
(src/app/aemet_client.py line 97): `str(estado) == "404"`, `descripcion` is
a string, and its lowercase form contains the sentinel text. -/
def noDataSentinel (p : MetaPayload) : Bool :=
  pyStr p.estado == "404" &&
    (match p.descripcion with
     | .jstr s => containsSub (lowerStr s) ("no hay datos".toList)
     | _ => false)

/-- The diagnostic message built when the data URL is missing and the
sentinel does not apply (src/app/aemet_client.py lines 101-106). -/
def missingDatosMessage (p : MetaPayload) : String :=
  let base := "AEMET response missing datos URL"
  let withEstado :=
    if p.estado ≠ JVal.jnull then base ++ ". estado=" ++ pyStr p.estado else base
  if pyTruthy p.descripcion then
    withEstado ++ ". descripcion=" ++ pyStr p.descripcion
  else withEstado

/-- `AemetClient._request_data_items` (src/app/aemet_client.py lines
72-123), with the two network calls supplied as data: fail on a metadata
HTTP error, invalid JSON or non-object body; when the payload carries no
data URL, return the empty list only when `allow_no_data` holds and the
no-data sentinel matches, and fail otherwise; when a data URL is present,
follow it and fail on an HTTP error, invalid JSON or non-list payload. -/
def request_data_items {α : Type} (allow_no_data : Bool) (meta : MetaResp)
    (fetchData : String → DataResp α) : Except String (List α) :=
  match meta with
  | .httpError code => .error ("AEMET metadata request failed with HTTP " ++ toString code)
  | .badJson => .error "AEMET metadata response is not valid JSON"
  | .notDict => .error "AEMET metadata response has unexpected shape"
  | .ok p =>
    if dataUrlMissing p then
      if allow_no_data && noDataSentinel p then .ok []
      else .error (missingDatosMessage p)
    else
      match fetchData (p.datos.getD "") with
      | .httpError code => .error ("AEMET data download failed with HTTP " ++ toString code)
      | .badJson => .error "AEMET data payload is not valid JSON"
      | .notList => .error "AEMET data payload has unexpected shape"
      | .ok items => .ok items

/-- `AemetClient.fetch_station_data` (src/app/aemet_client.py lines 21-37)
after the credential check: requests the data items with
`allow_no_data=True` and maps `_map_row` (supplied as `mapRow`) over them. -/
def fetch_station_data {α : Type} (mapRow : α → SourceMeasurement)
    (meta : MetaResp) (fetchData : String → DataResp α) :
    Except String (List SourceMeasurement) :=
  (request_data_items true meta fetchData).map (fun items => items.map mapRow)

/-- `AemetClient.fetch_station_inventory` (src/app/aemet_client.py lines
39-70) after the credential check: requests the data items with
`allow_no_data=False` and builds catalog entries (supplied as `buildRows`)
from them. -/
def fetch_station_inventory {α β : Type} (buildRows : List α → List β)
    (meta : MetaResp) (fetchData : String → DataResp α) :
    Except String (List β) :=
  (request_data_items false meta fetchData).map buildRows

/-! ## Theorems -/

/-- Helper: `maxFetchedAt` yields nothing exactly on the empty list. -/
theorem maxFetchedAt_eq_none {l : List Int} :
    maxFetchedAt l = Option.none ↔ l = [] := by
  cases l with
  | nil => simp [maxFetchedAt]
  | cons f t =>
    simp only [maxFetchedAt]
    cases maxFetchedAt t <;> simp

/-- Helper: the selected maximal fetch instant is one of the instants. -/
theorem maxFetchedAt_mem {l : List Int} {m : Int}
    (h : maxFetchedAt l = some m) : m ∈ l := by
  induction l generalizing m with
  | nil => simp [maxFetchedAt] at h
  | cons f t ih =>
    simp only [maxFetchedAt] at h
    cases ht : maxFetchedAt t with
    | none =>
      rw [ht] at h
      have : f = m := Option.some_inj.mp h
      rw [← this]
      exact List.mem_cons_self f t
    | some k =>
      rw [ht] at h
      have hm : max f k = m := Option.some_inj.mp h
      rcases max_choice f k with hc | hc
      · rw [← hm, hc]; exact List.mem_cons_self f t
      · rw [← hm, hc]; exact List.mem_cons_of_mem f (ih ht)

/-- Helper: every instant in the list is at most the selected maximum. -/
theorem le_maxFetchedAt {l : List Int} {a m : Int}
    (ha : a ∈ l) (h : maxFetchedAt l = some m) : a ≤ m := by
  induction l generalizing m with
  | nil => cases ha
  | cons f t ih =>
    simp only [maxFetchedAt] at h
    cases ht : maxFetchedAt t with
    | none =>
      rw [ht] at h
      have hfm : f = m := Option.some_inj.mp h
      have ht' : t = [] := maxFetchedAt_eq_none.mp ht
      subst ht'
      rcases List.mem_cons.mp ha with rfl | hat
      · exact le_of_eq hfm
      · cases hat
    | some k =>
      rw [ht] at h
      have hm : max f k = m := Option.some_inj.mp h
      rcases List.mem_cons.mp ha with rfl | hat
      · rw [← hm]; exact le_max_left a k
      · rw [← hm]; exact le_trans (ih hat ht) (le_max_right f k)

/-- C6: evaluation of `_avg_angle_deg` at the direction multiset
{0°, 180°} under the values the CPython IEEE-754 double trig functions
take there.  The unit vectors of 0° and 180° cancel exactly in real
arithmetic, but in double arithmetic `sin(radians(180.0))` is
`1.2246467991473532e-16`, not `0.0`, so the `x == 0 and y == 0` guard does
not fire and the function returns `90.0` instead of the absent value the
specification requires. -/
theorem c6_avg_angle_zero_180_returns_90 :
    avg_angle_deg ieeeTrigAtZeroAnd180 [some 0, some 180] = some 90 := by
  norm_num [avg_angle_deg, ieeeTrigAtZeroAnd180, List.filterMap, piDouble, sinPiDouble,
    halfPiDouble, piLit, pyMod, roundTo3, roundHalfEven]
  simp

/-- C7: for every bucket produced by `_aggregate` under a non-RAW
granularity, each scalar quantity (temperature, pressure, speed) is `_avg`
of the values of the rows grouped into that bucket; `_avg` is the
arithmetic mean over the present values only, rounded to 3 decimal places,
and yields absent (not zero, not an error) when every value is absent; in
particular averaging 10.0 and 14.0 yields 12.0. -/
theorem c7_scalar_mean_per_bucket (tz : TZ) (A : List (Option ℚ) → Option ℚ)
    (g : TimeAggregation) (rows : List SourceMeasurement)
    (hg : g ≠ TimeAggregation.none) :
    (∀ values : List (Option ℚ),
      (values.filterMap id = [] → avg values = Option.none) ∧
      (values.filterMap id ≠ [] →
        avg values = some (roundTo3
          ((values.filterMap id).sum / ((values.filterMap id).length : ℚ))))) ∧
    avg [some 10, some 14] = some 12 ∧
    (∀ b ∈ aggregate tz A g rows,
      b.temperature_c =
        avg ((rows.filter (fun r => keyInstant tz g r == b.measured_at_utc)).map
          (fun i => i.temperature_c)) ∧
      b.pressure_hpa =
        avg ((rows.filter (fun r => keyInstant tz g r == b.measured_at_utc)).map
          (fun i => i.pressure_hpa)) ∧
      b.speed_mps =
        avg ((rows.filter (fun r => keyInstant tz g r == b.measured_at_utc)).map
          (fun i => i.speed_mps))) := by
  refine ⟨?_, ?_, ?_⟩
  · intro values
    constructor
    · intro h; simp [avg, h]
    · intro h; simp [avg, h]
  · norm_num [avg, roundTo3, roundHalfEven, List.filterMap]
    simp
  · intro b hb
    unfold aggregate at hb
    rw [if_neg hg] at hb
    obtain ⟨k, hk, rfl⟩ := List.mem_map.mp hb
    refine ⟨?_, ?_, ?_⟩ <;> simp [bucketOf]

/-- C7 witness: the theorem applied at hourly granularity with a concrete
timezone, direction aggregator and row list. -/
theorem c7_scalar_mean_per_bucket_witness :
    (TimeAggregation.hourly ≠ TimeAggregation.none) ∧
    ((∀ values : List (Option ℚ),
      (values.filterMap id = [] → avg values = Option.none) ∧
      (values.filterMap id ≠ [] →
        avg values = some (roundTo3
          ((values.filterMap id).sum / ((values.filterMap id).length : ℚ))))) ∧
    avg [some 10, some 14] = some 12 ∧
    (∀ b ∈ aggregate ⟨fun _ => default, fun _ => 0⟩ (fun _ => Option.none)
        TimeAggregation.hourly [],
      b.temperature_c =
        avg (((List.nil : List SourceMeasurement).filter
          (fun r => keyInstant ⟨fun _ => default, fun _ => 0⟩ TimeAggregation.hourly r
            == b.measured_at_utc)).map (fun i => i.temperature_c)) ∧
      b.pressure_hpa =
        avg (((List.nil : List SourceMeasurement).filter
          (fun r => keyInstant ⟨fun _ => default, fun _ => 0⟩ TimeAggregation.hourly r
            == b.measured_at_utc)).map (fun i => i.pressure_hpa)) ∧
      b.speed_mps =
        avg (((List.nil : List SourceMeasurement).filter
          (fun r => keyInstant ⟨fun _ => default, fun _ => 0⟩ TimeAggregation.hourly r
            == b.measured_at_utc)).map (fun i => i.speed_mps)))) :=
  ⟨by decide, c7_scalar_mean_per_bucket ⟨fun _ => default, fun _ => 0⟩
    (fun _ => Option.none) TimeAggregation.hourly [] (by decide)⟩

set_option exponentiation.threshold 1100 in
/-- C10 counterexample: `_to_float` is not total and can raise.  At the
integer `10 ^ 400` — reachable, since the JSON decoder parses
arbitrary-precision integers — `float()` raises OverflowError, which
`except (TypeError, ValueError)` does not catch, so `_to_float` propagates
the exception instead of returning a value or absent. -/
theorem c10_to_float_overflow_raises :
    to_float (PyVal.pyint (10 ^ 400)) = Except.error PyExc.overflowError := by
  have hb : (2 : Int) ^ 1024 ≤ (10 : Int) ^ 400 ∨ (10 : Int) ^ 400 ≤ -(2 ^ 1024) := by
    left
    norm_num
  simp [to_float, pyFloatOf, hb]

/-- C10 amended: `_to_float` maps `None` and the empty string to absent
before calling `float`; it catches exactly TypeError and ValueError, so
unparseable strings and non-coercible objects map to absent; a successful
`float(value)` is returned as is — including the non-finite values parsed
from inf/nan spellings or from overflowing numeric strings such as 1e999,
and non-finite float inputs, which are propagated rather than mapped to
absent — while an integer beyond the double range makes `float` raise
OverflowError, which escapes `_to_float` uncaught. -/
theorem c10_to_float_catches_only_type_and_value_errors (v : PyVal) :
    to_float PyVal.pynone = Except.ok Option.none ∧
    to_float (PyVal.pystr "") = Except.ok Option.none ∧
    (∀ x, pyFloatOf v = Except.ok x → to_float v = Except.ok (some x)) ∧
    (pyFloatOf v = Except.error PyExc.typeError → to_float v = Except.ok Option.none) ∧
    (pyFloatOf v = Except.error PyExc.valueError → to_float v = Except.ok Option.none) ∧
    (pyFloatOf v = Except.error PyExc.overflowError →
      to_float v = Except.error PyExc.overflowError) ∧
    to_float (PyVal.pystr "abc") = Except.ok Option.none ∧
    to_float PyVal.pyobj = Except.ok Option.none ∧
    to_float (PyVal.pystr "inf") = Except.ok (some PyFloatVal.inf) ∧
    to_float (PyVal.pystr "-Infinity") = Except.ok (some PyFloatVal.neginf) ∧
    to_float (PyVal.pystr "nan") = Except.ok (some PyFloatVal.nan) ∧
    to_float (PyVal.pyfloat PyFloatVal.nan) = Except.ok (some PyFloatVal.nan) ∧
    to_float (PyVal.pystr "1e999") = Except.ok (some PyFloatVal.inf) ∧
    to_float (PyVal.pystr "1_0") = Except.ok (some (PyFloatVal.finite 10)) := by
  have hempty : parsePyFloat "" = Option.none := by decide
  refine ⟨by decide, by decide, ?_, ?_, ?_, ?_, by decide, by decide, by decide,
    by decide, by decide, by decide, ?_, ?_⟩
  · intro x h
    have hne : ¬(v = PyVal.pynone ∨ v = PyVal.pystr "") := by
      rintro (rfl | rfl)
      · simp [pyFloatOf] at h
      · simp [pyFloatOf, hempty] at h
    simp [to_float, hne, h]
  · intro h
    by_cases hv : v = PyVal.pynone ∨ v = PyVal.pystr ""
    · simp [to_float, hv]
    · simp [to_float, hv, h]
  · intro h
    by_cases hv : v = PyVal.pynone ∨ v = PyVal.pystr ""
    · simp [to_float, hv]
    · simp [to_float, hv, h]
  · intro h
    have hne : ¬(v = PyVal.pynone ∨ v = PyVal.pystr "") := by
      rintro (rfl | rfl)
      · simp [pyFloatOf] at h
      · simp [pyFloatOf, hempty] at h
    simp [to_float, hne, h]
  · show to_float (PyVal.pystr "1e999") = Except.ok (some PyFloatVal.inf)
    have hne : ¬(PyVal.pystr "1e999" = PyVal.pynone ∨
        PyVal.pystr "1e999" = PyVal.pystr "") := by decide
    have hp : parsePyFloat "1e999" =
        some (clampDouble (numLitVal ⟨['1'], [], 999⟩)) := rfl
    have hv : numLitVal ⟨['1'], [], 999⟩ = (10 : ℚ) ^ (999 : Int) := by
      have h1 : digitsToNat ['1'] = 1 := by decide
      have h2 : digitsToNat ([] : List Char) = 0 := by decide
      simp [numLitVal, h1, h2]
    have hc : clampDouble ((10 : ℚ) ^ (999 : Int)) = PyFloatVal.inf := by
      unfold clampDouble doubleRange
      rw [if_pos (by norm_num)]
    simp [to_float, hne, pyFloatOf, hp, hv, hc]
  · show to_float (PyVal.pystr "1_0") = Except.ok (some (PyFloatVal.finite 10))
    have hne : ¬(PyVal.pystr "1_0" = PyVal.pynone ∨
        PyVal.pystr "1_0" = PyVal.pystr "") := by decide
    have hp : parsePyFloat "1_0" =
        some (clampDouble (numLitVal ⟨['1', '0'], [], 0⟩)) := rfl
    have hv : numLitVal ⟨['1', '0'], [], 0⟩ = (10 : ℚ) := by
      have h1 : digitsToNat ['1', '0'] = 10 := by decide
      have h2 : digitsToNat ([] : List Char) = 0 := by decide
      simp [numLitVal, h1, h2]
    have hc : clampDouble (10 : ℚ) = PyFloatVal.finite 10 := by
      unfold clampDouble doubleRange
      rw [if_neg (by norm_num), if_neg (by norm_num)]
    simp [to_float, hne, pyFloatOf, hp, hv, hc]

/-- C9: when the metadata payload carries no data URL, the no-data sentinel
(provider status text 404 with a description string whose lowercase form
contains the sentinel text, as spelled out by the final equivalence) makes
`fetch_station_data` return the empty list as a valid non-error outcome,
while the very same payload makes `fetch_station_inventory` fail; any
missing-data-URL payload that does not match the sentinel fails for both. -/
theorem c9_no_data_sentinel {α β : Type} (mapRow : α → SourceMeasurement)
    (buildRows : List α → List β) (p : MetaPayload)
    (fetchData : String → DataResp α)
    (hmiss : dataUrlMissing p = true) :
    (noDataSentinel p = true →
      fetch_station_data mapRow (MetaResp.ok p) fetchData = Except.ok []) ∧
    (fetch_station_inventory buildRows (MetaResp.ok p) fetchData =
      Except.error (missingDatosMessage p)) ∧
    (noDataSentinel p = false →
      fetch_station_data mapRow (MetaResp.ok p) fetchData =
        Except.error (missingDatosMessage p)) ∧
    (noDataSentinel p = true ↔
      pyStr p.estado = "404" ∧
        ∃ s, p.descripcion = JVal.jstr s ∧
          containsSub (lowerStr s) ("no hay datos".toList) = true) := by
  refine ⟨?_, ?_, ?_, ?_⟩
  · intro hsent
    simp [fetch_station_data, request_data_items, hmiss, hsent, Except.map]
  · simp [fetch_station_inventory, request_data_items, hmiss, Except.map]
  · intro hsent
    simp [fetch_station_data, request_data_items, hmiss, hsent, Except.map]
  · unfold noDataSentinel
    cases hd : p.descripcion with
    | jstr s => simp [Bool.and_eq_true, beq_iff_eq]
    | jnull => simp
    | jint n => simp
    | jother => simp

/-- C9 witness: the theorem applied to the payload with status 404 and the
description the provider actually sends, and to concrete row builders. -/
theorem c9_no_data_sentinel_witness :
    (dataUrlMissing ⟨Option.none, JVal.jint 404,
        JVal.jstr "No hay datos que satisfagan esos criterios"⟩ = true) ∧
    ((noDataSentinel ⟨Option.none, JVal.jint 404,
        JVal.jstr "No hay datos que satisfagan esos criterios"⟩ = true →
      fetch_station_data (fun _ : Unit => default)
        (MetaResp.ok ⟨Option.none, JVal.jint 404,
          JVal.jstr "No hay datos que satisfagan esos criterios"⟩)
        (fun _ => DataResp.ok []) = Except.ok []) ∧
    (fetch_station_inventory (fun l : List Unit => l)
        (MetaResp.ok ⟨Option.none, JVal.jint 404,
          JVal.jstr "No hay datos que satisfagan esos criterios"⟩)
        (fun _ => DataResp.ok []) =
      Except.error (missingDatosMessage ⟨Option.none, JVal.jint 404,
        JVal.jstr "No hay datos que satisfagan esos criterios"⟩)) ∧
    (noDataSentinel ⟨Option.none, JVal.jint 404,
        JVal.jstr "No hay datos que satisfagan esos criterios"⟩ = false →
      fetch_station_data (fun _ : Unit => default)
        (MetaResp.ok ⟨Option.none, JVal.jint 404,
          JVal.jstr "No hay datos que satisfagan esos criterios"⟩)
        (fun _ => DataResp.ok []) =
        Except.error (missingDatosMessage ⟨Option.none, JVal.jint 404,
          JVal.jstr "No hay datos que satisfagan esos criterios"⟩)) ∧
    (noDataSentinel ⟨Option.none, JVal.jint 404,
        JVal.jstr "No hay datos que satisfagan esos criterios"⟩ = true ↔
      pyStr (JVal.jint 404) = "404" ∧
        ∃ s, (JVal.jstr "No hay datos que satisfagan esos criterios" : JVal) =
            JVal.jstr s ∧
          containsSub (lowerStr s) ("no hay datos".toList) = true)) :=
  ⟨by decide, c9_no_data_sentinel (fun _ : Unit => default) (fun l : List Unit => l)
    ⟨Option.none, JVal.jint 404, JVal.jstr "No hay datos que satisfagan esos criterios"⟩
    (fun _ => DataResp.ok []) (by decide)⟩

/-- C3: `has_fresh_fetch_window` returns true exactly when some recorded
window of the station covers the requested range
(`window.start <= start_utc` and `end_utc <= window.end`) with fetch
instant at least `min_fetched_at_utc`; and the comparison the code performs
is against the most recently fetched covering window only: whenever the
maximum fetch instant among covering windows is `f`, the result is exactly
`min_fetched_at_utc <= f`. -/
theorem c3_has_fresh_fetch_window_iff (st : Store) (sid : String) (s e minF : Int) :
    (has_fresh_fetch_window st sid s e minF = true ↔
      ∃ w ∈ st.fetch_windows, w.station_id = sid ∧ w.start_utc ≤ s ∧
        e ≤ w.end_utc ∧ minF ≤ w.fetched_at_utc) ∧
    (∀ f : Int,
      maxFetchedAt ((st.fetch_windows.filter
          (fun w => w.station_id == sid && w.start_utc ≤ s && e ≤ w.end_utc)).map
        (fun w => w.fetched_at_utc)) = some f →
      (has_fresh_fetch_window st sid s e minF = true ↔ minF ≤ f)) := by
  have hmem : ∀ w : WRow,
      w ∈ st.fetch_windows.filter
          (fun w => w.station_id == sid && w.start_utc ≤ s && e ≤ w.end_utc) ↔
        w ∈ st.fetch_windows ∧ w.station_id = sid ∧ w.start_utc ≤ s ∧ e ≤ w.end_utc := by
    intro w
    simp [List.mem_filter, Bool.and_eq_true, beq_iff_eq, and_assoc]
  constructor
  · simp only [has_fresh_fetch_window]
    cases hmax : maxFetchedAt ((st.fetch_windows.filter
        (fun w => w.station_id == sid && w.start_utc ≤ s && e ≤ w.end_utc)).map
          (fun w => w.fetched_at_utc)) with
    | none =>
      rw [maxFetchedAt_eq_none, List.map_eq_nil_iff] at hmax
      constructor
      · intro h; simp at h
      · rintro ⟨w, hw, hsid, hs, he, hf⟩
        have : w ∈ (List.nil : List WRow) := by
          rw [← hmax]; exact (hmem w).mpr ⟨hw, hsid, hs, he⟩
        cases this
    | some f =>
      have hfmem := maxFetchedAt_mem hmax
      constructor
      · intro h
        have hf : minF ≤ f := by simpa using h
        obtain ⟨w, hwf, hwe⟩ := List.mem_map.mp hfmem
        obtain ⟨hw, hsid, hs, he⟩ := (hmem w).mp hwf
        exact ⟨w, hw, hsid, hs, he, by rw [hwe]; exact hf⟩
      · rintro ⟨w, hw, hsid, hs, he, hf⟩
        have hwm : w.fetched_at_utc ∈
            (st.fetch_windows.filter
              (fun w => w.station_id == sid && w.start_utc ≤ s && e ≤ w.end_utc)).map
                (fun w => w.fetched_at_utc) :=
          List.mem_map.mpr ⟨w, (hmem w).mpr ⟨hw, hsid, hs, he⟩, rfl⟩
        have : w.fetched_at_utc ≤ f := le_maxFetchedAt hwm hmax
        simpa using le_trans hf this
  · intro f hmax
    simp only [has_fresh_fetch_window, hmax]
    simp

/-- Helper: the conflict merge preserves the primary-key fields, so the
merged row still matches the incoming key. -/
theorem sameMKey_mergeMRow (x m : MRow) : sameMKey (mergeMRow x m) m = sameMKey x m := rfl

/-- Helper: merging the same incoming row a second time changes nothing. -/
theorem mergeMRow_mergeMRow (x m : MRow) :
    mergeMRow (mergeMRow x m) m = mergeMRow x m := by
  unfold mergeMRow
  cases m.latitude <;> cases m.longitude <;> cases m.altitude_m <;> rfl

/-- Helper: merging a row with itself changes nothing. -/
theorem mergeMRow_self (m : MRow) : mergeMRow m m = m := by
  have h : ∀ o : Option ℚ, (match o with | some v => some v | Option.none => o) = o := by
    intro o; cases o <;> rfl
  unfold mergeMRow
  rw [h, h, h]

/-- C5: the measurement upsert of `upsert_measurements` is idempotent on a
row: after inserting a row into a table whose rows carry distinct primary
keys at most once, exactly one stored row matches its
`(station_id, measured_at_utc)` key, and replaying the very same row leaves
the table unchanged.  On key conflict every field is overwritten from the
incoming row except the geospatial fields, which keep the stored value when
the incoming one is absent and take the incoming value when present — so a
stored non-absent coordinate never regresses to absent. -/
theorem c5_upsert_idempotent_geospatial (ms : List MRow) (m : MRow)
    (h : ms.countP (fun x => sameMKey x m) ≤ 1) :
    (upsertMRow ms m).countP (fun x => sameMKey x m) = 1 ∧
    upsertMRow (upsertMRow ms m) m = upsertMRow ms m ∧
    (∀ x : MRow,
      (mergeMRow x m).station_name = m.station_name ∧
      (mergeMRow x m).temperature_c = m.temperature_c ∧
      (mergeMRow x m).pressure_hpa = m.pressure_hpa ∧
      (mergeMRow x m).speed_mps = m.speed_mps ∧
      (mergeMRow x m).direction_deg = m.direction_deg ∧
      (mergeMRow x m).fetched_at_utc = m.fetched_at_utc) ∧
    (∀ x : MRow, m.latitude = Option.none → (mergeMRow x m).latitude = x.latitude) ∧
    (∀ x : MRow, m.longitude = Option.none → (mergeMRow x m).longitude = x.longitude) ∧
    (∀ x : MRow, m.altitude_m = Option.none → (mergeMRow x m).altitude_m = x.altitude_m) ∧
    (∀ x : MRow, m.latitude ≠ Option.none → (mergeMRow x m).latitude = m.latitude) ∧
    (∀ x : MRow, m.longitude ≠ Option.none → (mergeMRow x m).longitude = m.longitude) ∧
    (∀ x : MRow, m.altitude_m ≠ Option.none → (mergeMRow x m).altitude_m = m.altitude_m) ∧
    (∀ x : MRow, x.latitude ≠ Option.none → (mergeMRow x m).latitude ≠ Option.none) ∧
    (∀ x : MRow, x.longitude ≠ Option.none → (mergeMRow x m).longitude ≠ Option.none) ∧
    (∀ x : MRow, x.altitude_m ≠ Option.none → (mergeMRow x m).altitude_m ≠ Option.none) := by
  have hg : ∀ x : MRow,
      sameMKey (if sameMKey x m then mergeMRow x m else x) m = sameMKey x m := by
    intro x
    by_cases hx : sameMKey x m = true
    · rw [if_pos hx, sameMKey_mergeMRow]
    · rw [if_neg hx]
  refine ⟨?_, ?_, ?_, ?_, ?_, ?_, ?_, ?_, ?_, ?_, ?_, ?_⟩
  · by_cases hany : ms.any (fun x => sameMKey x m) = true
    · have hpos : 0 < ms.countP (fun x => sameMKey x m) := by
        rw [List.countP_pos_iff]
        obtain ⟨x, hx, hpx⟩ := List.any_eq_true.mp hany
        exact ⟨x, hx, hpx⟩
      have hone : ms.countP (fun x => sameMKey x m) = 1 := le_antisymm h hpos
      unfold upsertMRow
      rw [if_pos hany, List.countP_map]
      calc ms.countP ((fun x => sameMKey x m) ∘
              fun x => if sameMKey x m then mergeMRow x m else x)
          = ms.countP (fun x => sameMKey x m) :=
            List.countP_congr (fun x _ => by simp only [Function.comp_apply, hg x])
        _ = 1 := hone
    · have hzero : ms.countP (fun x => sameMKey x m) = 0 := by
        rw [List.countP_eq_zero]
        intro x hx
        exact fun hpx => hany (List.any_eq_true.mpr ⟨x, hx, hpx⟩)
      unfold upsertMRow
      rw [if_neg hany, List.countP_append, hzero]
      simp [sameMKey]
  · by_cases hany : ms.any (fun x => sameMKey x m) = true
    · unfold upsertMRow
      rw [if_pos hany]
      have hany2 : (ms.map (fun x => if sameMKey x m then mergeMRow x m else x)).any
          (fun x => sameMKey x m) = true := by
        rw [List.any_map]
        obtain ⟨x, hx, hpx⟩ := List.any_eq_true.mp hany
        refine List.any_eq_true.mpr ⟨x, hx, ?_⟩
        simp only [Function.comp_apply, hg x]
        exact hpx
      rw [if_pos hany2, List.map_map]
      refine List.map_congr_left ?_
      intro x _
      by_cases hx : sameMKey x m = true
      · simp [Function.comp, hx, sameMKey_mergeMRow, mergeMRow_mergeMRow]
      · simp [Function.comp, hx]
    · unfold upsertMRow
      rw [if_neg hany]
      have hany2 : (ms ++ [m]).any (fun x => sameMKey x m) = true := by
        refine List.any_eq_true.mpr ⟨m, by simp, ?_⟩
        simp [sameMKey]
      rw [if_pos hany2, List.map_append]
      have h1 : ms.map (fun x => if sameMKey x m then mergeMRow x m else x) = ms := by
        calc ms.map (fun x => if sameMKey x m then mergeMRow x m else x)
            = ms.map id := List.map_congr_left (fun x hx => by
              have hpx : ¬sameMKey x m = true := by
                intro hc
                exact hany (List.any_eq_true.mpr ⟨x, hx, hc⟩)
              simp [hpx])
          _ = ms := List.map_id ms
      have h2 : [m].map (fun x => if sameMKey x m then mergeMRow x m else x) = [m] := by
        have hmm : sameMKey m m = true := by simp [sameMKey]
        simp [hmm, mergeMRow_self]
      rw [h1, h2]
  · intro x
    exact ⟨rfl, rfl, rfl, rfl, rfl, rfl⟩
  · intro x hx; simp [mergeMRow, hx]
  · intro x hx; simp [mergeMRow, hx]
  · intro x hx; simp [mergeMRow, hx]
  · intro x hx
    obtain ⟨v, hv⟩ := Option.ne_none_iff_exists'.mp hx
    simp [mergeMRow, hv]
  · intro x hx
    obtain ⟨v, hv⟩ := Option.ne_none_iff_exists'.mp hx
    simp [mergeMRow, hv]
  · intro x hx
    obtain ⟨v, hv⟩ := Option.ne_none_iff_exists'.mp hx
    simp [mergeMRow, hv]
  · intro x hx
    cases hm : m.latitude with
    | none => simpa [mergeMRow, hm] using hx
    | some v => simp [mergeMRow, hm]
  · intro x hx
    cases hm : m.longitude with
    | none => simpa [mergeMRow, hm] using hx
    | some v => simp [mergeMRow, hm]
  · intro x hx
    cases hm : m.altitude_m with
    | none => simpa [mergeMRow, hm] using hx
    | some v => simp [mergeMRow, hm]

/-- C5 witness: the theorem applied to the empty table and a concrete row. -/
theorem c5_upsert_idempotent_geospatial_witness :
    (List.nil.countP (fun x => sameMKey x
        ⟨"89064", "GdC", 0, Option.none, Option.none, Option.none, Option.none,
          Option.none, Option.none, Option.none, 5⟩) ≤ 1) ∧
    ((upsertMRow [] ⟨"89064", "GdC", 0, Option.none, Option.none, Option.none,
        Option.none, Option.none, Option.none, Option.none, 5⟩).countP
      (fun x => sameMKey x ⟨"89064", "GdC", 0, Option.none, Option.none, Option.none,
        Option.none, Option.none, Option.none, Option.none, 5⟩) = 1 ∧
    upsertMRow (upsertMRow [] ⟨"89064", "GdC", 0, Option.none, Option.none, Option.none,
        Option.none, Option.none, Option.none, Option.none, 5⟩)
      ⟨"89064", "GdC", 0, Option.none, Option.none, Option.none, Option.none,
        Option.none, Option.none, Option.none, 5⟩ =
      upsertMRow [] ⟨"89064", "GdC", 0, Option.none, Option.none, Option.none,
        Option.none, Option.none, Option.none, Option.none, 5⟩ ∧
    (∀ x : MRow,
      (mergeMRow x ⟨"89064", "GdC", 0, Option.none, Option.none, Option.none,
        Option.none, Option.none, Option.none, Option.none, 5⟩).station_name = "GdC" ∧
      (mergeMRow x ⟨"89064", "GdC", 0, Option.none, Option.none, Option.none,
        Option.none, Option.none, Option.none, Option.none, 5⟩).temperature_c = Option.none ∧
      (mergeMRow x ⟨"89064", "GdC", 0, Option.none, Option.none, Option.none,
        Option.none, Option.none, Option.none, Option.none, 5⟩).pressure_hpa = Option.none ∧
      (mergeMRow x ⟨"89064", "GdC", 0, Option.none, Option.none, Option.none,
        Option.none, Option.none, Option.none, Option.none, 5⟩).speed_mps = Option.none ∧
      (mergeMRow x ⟨"89064", "GdC", 0, Option.none, Option.none, Option.none,
        Option.none, Option.none, Option.none, Option.none, 5⟩).direction_deg = Option.none ∧
      (mergeMRow x ⟨"89064", "GdC", 0, Option.none, Option.none, Option.none,
        Option.none, Option.none, Option.none, Option.none, 5⟩).fetched_at_utc = 5) ∧
    (∀ x : MRow, (Option.none : Option ℚ) = Option.none →
      (mergeMRow x ⟨"89064", "GdC", 0, Option.none, Option.none, Option.none,
        Option.none, Option.none, Option.none, Option.none, 5⟩).latitude = x.latitude) ∧
    (∀ x : MRow, (Option.none : Option ℚ) = Option.none →
      (mergeMRow x ⟨"89064", "GdC", 0, Option.none, Option.none, Option.none,
        Option.none, Option.none, Option.none, Option.none, 5⟩).longitude = x.longitude) ∧
    (∀ x : MRow, (Option.none : Option ℚ) = Option.none →
      (mergeMRow x ⟨"89064", "GdC", 0, Option.none, Option.none, Option.none,
        Option.none, Option.none, Option.none, Option.none, 5⟩).altitude_m = x.altitude_m) ∧
    (∀ x : MRow, (Option.none : Option ℚ) ≠ Option.none →
      (mergeMRow x ⟨"89064", "GdC", 0, Option.none, Option.none, Option.none,
        Option.none, Option.none, Option.none, Option.none, 5⟩).latitude = Option.none) ∧
    (∀ x : MRow, (Option.none : Option ℚ) ≠ Option.none →
      (mergeMRow x ⟨"89064", "GdC", 0, Option.none, Option.none, Option.none,
        Option.none, Option.none, Option.none, Option.none, 5⟩).longitude = Option.none) ∧
    (∀ x : MRow, (Option.none : Option ℚ) ≠ Option.none →
      (mergeMRow x ⟨"89064", "GdC", 0, Option.none, Option.none, Option.none,
        Option.none, Option.none, Option.none, Option.none, 5⟩).altitude_m = Option.none) ∧
    (∀ x : MRow, x.latitude ≠ Option.none →
      (mergeMRow x ⟨"89064", "GdC", 0, Option.none, Option.none, Option.none,
        Option.none, Option.none, Option.none, Option.none, 5⟩).latitude ≠ Option.none) ∧
    (∀ x : MRow, x.longitude ≠ Option.none →
      (mergeMRow x ⟨"89064", "GdC", 0, Option.none, Option.none, Option.none,
        Option.none, Option.none, Option.none, Option.none, 5⟩).longitude ≠ Option.none) ∧
    (∀ x : MRow, x.altitude_m ≠ Option.none →
      (mergeMRow x ⟨"89064", "GdC", 0, Option.none, Option.none, Option.none,
        Option.none, Option.none, Option.none, Option.none, 5⟩).altitude_m ≠ Option.none)) :=
  ⟨by decide, c5_upsert_idempotent_geospatial []
    ⟨"89064", "GdC", 0, Option.none, Option.none, Option.none, Option.none,
      Option.none, Option.none, Option.none, 5⟩ (by decide)⟩

/-- Helper: write statements change only the pending view of a connection;
the observable store is untouched and the pending view accumulates the
operations. -/
theorem runConn_writes (c : Conn) (ops : List DbOp) :
    runConn c (ops.map SqlStmt.write) = ⟨c.db, runOps c.pending ops⟩ := by
  induction ops generalizing c with
  | nil => rfl
  | cons o t ih =>
    show runConn ⟨c.db, applyDbOp c.pending o⟩ (t.map SqlStmt.write) = _
    rw [ih ⟨c.db, applyDbOp c.pending o⟩]
    rfl

/-- Helper: running statement lists in sequence. -/
theorem runConn_append (c : Conn) (l1 l2 : List SqlStmt) :
    runConn c (l1 ++ l2) = runConn (runConn c l1) l2 := by
  unfold runConn
  rw [List.foldl_append]

/-- Helper: the committed result of the upsert transaction is the plain
sequential application of its write operations. -/
theorem upsert_measurements_eq_runOps (st : Store) (sid : String)
    (rows : List SourceMeasurement) (s e now : Int) :
    upsert_measurements st sid rows s e now = runOps st (upsertOps sid rows s e now) := by
  unfold upsert_measurements upsertStmts
  rw [runConn_append, runConn_writes]
  rfl

/-- Helper: measurement inserts leave the fetch-windows table unchanged. -/
theorem foldl_insertMeasurement_windows (sid : String) (now : Int)
    (rs : List SourceMeasurement) (σ : Store) :
    (rs.foldl (fun acc r => applyDbOp acc (DbOp.insertMeasurement (toMRow sid now r)))
      σ).fetch_windows = σ.fetch_windows := by
  induction rs generalizing σ with
  | nil => rfl
  | cons r t ih =>
    rw [List.foldl_cons, ih]
    rfl

/-- Helper: the fetch-windows table left by the upsert transaction is the
original table with exactly the requested window upserted. -/
theorem runOps_upsertOps_windows (st : Store) (sid : String)
    (rows : List SourceMeasurement) (s e now : Int) :
    (runOps st (upsertOps sid rows s e now)).fetch_windows =
      upsertWRow st.fetch_windows ⟨sid, s, e, now⟩ := by
  unfold upsertOps runOps
  rw [List.foldl_append, List.foldl_map]
  rw [List.foldl_cons, List.foldl_nil]
  show (applyDbOp _ (DbOp.insertWindow ⟨sid, s, e, now⟩)).fetch_windows = _
  rw [show ∀ τ : Store, (applyDbOp τ (DbOp.insertWindow ⟨sid, s, e, now⟩)).fetch_windows
      = upsertWRow τ.fetch_windows ⟨sid, s, e, now⟩ from fun τ => rfl]
  rw [foldl_insertMeasurement_windows]

/-- Helper: after upserting a window, that exact window row is present. -/
theorem mem_upsertWRow (ws : List WRow) (w : WRow) : w ∈ upsertWRow ws w := by
  unfold upsertWRow
  by_cases hany : ws.any (fun x => sameWKey x w) = true
  · rw [if_pos hany]
    obtain ⟨x, hx, hpx⟩ := List.any_eq_true.mp hany
    refine List.mem_map.mpr ⟨x, hx, ?_⟩
    rw [if_pos hpx]
    simp only [sameWKey, Bool.and_eq_true, beq_iff_eq] at hpx
    cases w
    cases x
    simp_all
  · rw [if_neg hany]
    exact List.mem_append_right _ (List.mem_singleton.mpr rfl)

/-- Helper: upserting a window adds no row other than the upserted one. -/
theorem mem_upsertWRow_elim (ws : List WRow) (w : WRow) :
    ∀ x ∈ upsertWRow ws w, x ∈ ws ∨ x = w := by
  intro x hx
  unfold upsertWRow at hx
  by_cases hany : ws.any (fun y => sameWKey y w) = true
  · rw [if_pos hany] at hx
    obtain ⟨y, hy, hxy⟩ := List.mem_map.mp hx
    by_cases hpy : sameWKey y w = true
    · right
      rw [if_pos hpy] at hxy
      simp only [sameWKey, Bool.and_eq_true, beq_iff_eq] at hpy
      cases w
      cases y
      simp_all
    · left
      rw [if_neg hpy] at hxy
      rw [← hxy]
      exact hy
  · rw [if_neg hany] at hx
    rcases List.mem_append.mp hx with hl | hr
    · exact Or.inl hl
    · exact Or.inr (List.mem_singleton.mp hr)

/-- C2: when a fresh covering fetch window exists, `get_data` performs no
remote fetch and no store write: the adapter call list is empty, the store
is returned unchanged, and the response is computed purely from the store
read of the requested range. -/
theorem c2_cache_hit_pure_read (settings : Settings) (tz : TZ)
    (A : List (Option ℚ) → Option ℚ)
    (adapter : Int → Int → String → List SourceMeasurement) (now : Int)
    (st : Store) (station : Station) (s e : Int) (g : TimeAggregation)
    (sel : List MeasurementType)
    (h : has_fresh_fetch_window st (station_id_for settings station) s e
      (now - settings.cache_freshness_seconds) = true) :
    (get_data settings tz A adapter now st station s e g sel).fetch_calls = [] ∧
    (get_data settings tz A adapter now st station s e g sel).store = st ∧
    (get_data settings tz A adapter now st station s e g sel).output =
      (aggregate tz A g
        (get_measurements st (station_id_for settings station) s e)).map
        (to_output sel) := by
  unfold get_data
  simp [h]

/-- C2 witness: the theorem applied to a store holding a window fetched
recently enough to cover the request. -/
theorem c2_cache_hit_pure_read_witness :
    (has_fresh_fetch_window ⟨[], [⟨"89064", 0, 100, 999999⟩]⟩ "89064" 0 100
      (1000000 - 10800) = true) ∧
    ((get_data ⟨"89064", "89070", 10800⟩ ⟨fun _ => default, fun _ => 0⟩
        (fun _ => Option.none) (fun _ _ _ => []) 1000000
        ⟨[], [⟨"89064", 0, 100, 999999⟩]⟩ Station.gabriel_de_castilla 0 100
        TimeAggregation.none []).fetch_calls = [] ∧
    (get_data ⟨"89064", "89070", 10800⟩ ⟨fun _ => default, fun _ => 0⟩
        (fun _ => Option.none) (fun _ _ _ => []) 1000000
        ⟨[], [⟨"89064", 0, 100, 999999⟩]⟩ Station.gabriel_de_castilla 0 100
        TimeAggregation.none []).store = ⟨[], [⟨"89064", 0, 100, 999999⟩]⟩ ∧
    (get_data ⟨"89064", "89070", 10800⟩ ⟨fun _ => default, fun _ => 0⟩
        (fun _ => Option.none) (fun _ _ _ => []) 1000000
        ⟨[], [⟨"89064", 0, 100, 999999⟩]⟩ Station.gabriel_de_castilla 0 100
        TimeAggregation.none []).output =
      (aggregate ⟨fun _ => default, fun _ => 0⟩ (fun _ => Option.none)
        TimeAggregation.none
        (get_measurements ⟨[], [⟨"89064", 0, 100, 999999⟩]⟩ "89064" 0 100)).map
        (to_output [])) :=
  ⟨by decide, c2_cache_hit_pure_read ⟨"89064", "89070", 10800⟩
    ⟨fun _ => default, fun _ => 0⟩ (fun _ => Option.none) (fun _ _ _ => []) 1000000
    ⟨[], [⟨"89064", 0, 100, 999999⟩]⟩ Station.gabriel_de_castilla 0 100
    TimeAggregation.none [] (by decide)⟩

/-- C1: when no fresh covering fetch window exists, `get_data` performs
exactly one remote fetch, for the full requested range and resolved
station; afterwards the store contains the fetch-window row for exactly
that `(station_id, start_utc, end_utc)` range stamped with the current
instant, and no window row other than the pre-existing ones and that exact
row.  The adapter is universally quantified, so this holds in particular
when it returns zero rows. -/
theorem c1_cache_miss_single_full_fetch (settings : Settings) (tz : TZ)
    (A : List (Option ℚ) → Option ℚ)
    (adapter : Int → Int → String → List SourceMeasurement) (now : Int)
    (st : Store) (station : Station) (s e : Int) (g : TimeAggregation)
    (sel : List MeasurementType)
    (h : has_fresh_fetch_window st (station_id_for settings station) s e
      (now - settings.cache_freshness_seconds) = false) :
    (get_data settings tz A adapter now st station s e g sel).fetch_calls =
      [(s, e, station_id_for settings station)] ∧
    (⟨station_id_for settings station, s, e, now⟩ : WRow) ∈
      (get_data settings tz A adapter now st station s e g sel).store.fetch_windows ∧
    (∀ w ∈ (get_data settings tz A adapter now st station s e g sel).store.fetch_windows,
      w ∈ st.fetch_windows ∨ w = ⟨station_id_for settings station, s, e, now⟩) := by
  have hwin : (upsert_measurements st (station_id_for settings station)
      (adapter s e (station_id_for settings station)) s e now).fetch_windows =
      upsertWRow st.fetch_windows ⟨station_id_for settings station, s, e, now⟩ := by
    rw [upsert_measurements_eq_runOps, runOps_upsertOps_windows]
  refine ⟨?_, ?_, ?_⟩
  · unfold get_data
    simp [h]
  · unfold get_data
    simp only [h, Bool.false_eq_true, if_false, hwin]
    exact mem_upsertWRow _ _
  · unfold get_data
    simp only [h, Bool.false_eq_true, if_false, hwin]
    exact mem_upsertWRow_elim _ _

/-- C1 witness: the theorem applied to the empty store (no covering window)
with an adapter returning zero rows; the exact-range window is recorded
regardless. -/
theorem c1_cache_miss_single_full_fetch_witness :
    (has_fresh_fetch_window ⟨[], []⟩ "89064" 0 100 (1000 - 10800) = false) ∧
    ((get_data ⟨"89064", "89070", 10800⟩ ⟨fun _ => default, fun _ => 0⟩
        (fun _ => Option.none) (fun _ _ _ => []) 1000 ⟨[], []⟩
        Station.gabriel_de_castilla 0 100 TimeAggregation.none []).fetch_calls =
      [(0, 100, "89064")] ∧
    (⟨"89064", 0, 100, 1000⟩ : WRow) ∈
      (get_data ⟨"89064", "89070", 10800⟩ ⟨fun _ => default, fun _ => 0⟩
        (fun _ => Option.none) (fun _ _ _ => []) 1000 ⟨[], []⟩
        Station.gabriel_de_castilla 0 100 TimeAggregation.none
        []).store.fetch_windows ∧
    (∀ w ∈ (get_data ⟨"89064", "89070", 10800⟩ ⟨fun _ => default, fun _ => 0⟩
        (fun _ => Option.none) (fun _ _ _ => []) 1000 ⟨[], []⟩
        Station.gabriel_de_castilla 0 100 TimeAggregation.none
        []).store.fetch_windows,
      w ∈ (⟨[], []⟩ : Store).fetch_windows ∨ w = ⟨"89064", 0, 100, 1000⟩)) :=
  ⟨by decide, c1_cache_miss_single_full_fetch ⟨"89064", "89070", 10800⟩
    ⟨fun _ => default, fun _ => 0⟩ (fun _ => Option.none) (fun _ _ _ => []) 1000
    ⟨[], []⟩ Station.gabriel_de_castilla 0 100 TimeAggregation.none [] (by decide)⟩

/-- Helper: presence of a measurement key survives any single write
operation: window writes do not touch the measurements table, and a
measurement upsert either inserts a fresh row or updates in place, the
conflict merge preserving the key fields of the stored row. -/
theorem key_present_applyDbOp (σ : Store) (op : DbOp) (sid : String) (t : Int)
    (h : ∃ m ∈ σ.measurements, m.station_id = sid ∧ m.measured_at_utc = t) :
    ∃ m ∈ (applyDbOp σ op).measurements,
      m.station_id = sid ∧ m.measured_at_utc = t := by
  obtain ⟨m, hm, h1, h2⟩ := h
  cases op with
  | insertWindow w => exact ⟨m, hm, h1, h2⟩
  | insertMeasurement m0 =>
    show ∃ x ∈ upsertMRow σ.measurements m0, _
    unfold upsertMRow
    by_cases hany : σ.measurements.any (fun x => sameMKey x m0) = true
    · rw [if_pos hany]
      by_cases hx : sameMKey m m0 = true
      · exact ⟨mergeMRow m m0, List.mem_map.mpr ⟨m, hm, by rw [if_pos hx]⟩, h1, h2⟩
      · exact ⟨m, List.mem_map.mpr ⟨m, hm, by rw [if_neg hx]⟩, h1, h2⟩
    · rw [if_neg hany]
      exact ⟨m, List.mem_append_left _ hm, h1, h2⟩

/-- Helper: after upserting a row, some stored row carries its key. -/
theorem key_present_upsertMRow_self (ms : List MRow) (m0 : MRow) :
    ∃ m ∈ upsertMRow ms m0,
      m.station_id = m0.station_id ∧ m.measured_at_utc = m0.measured_at_utc := by
  unfold upsertMRow
  by_cases hany : ms.any (fun x => sameMKey x m0) = true
  · rw [if_pos hany]
    obtain ⟨x, hx, hpx⟩ := List.any_eq_true.mp hany
    have hks : x.station_id = m0.station_id ∧ x.measured_at_utc = m0.measured_at_utc := by
      simpa [sameMKey, Bool.and_eq_true, beq_iff_eq] using hpx
    exact ⟨mergeMRow x m0, List.mem_map.mpr ⟨x, hx, by rw [if_pos hpx]⟩, hks.1, hks.2⟩
  · rw [if_neg hany]
    exact ⟨m0, List.mem_append_right _ (List.mem_singleton.mpr rfl), rfl, rfl⟩

/-- Helper: key presence survives a sequence of measurement inserts. -/
theorem key_present_fold_preserve (sid : String) (now : Int)
    (rs : List SourceMeasurement) (σ : Store) (sid' : String) (t : Int)
    (h : ∃ m ∈ σ.measurements, m.station_id = sid' ∧ m.measured_at_utc = t) :
    ∃ m ∈ (rs.foldl
        (fun acc x => applyDbOp acc (DbOp.insertMeasurement (toMRow sid now x)))
        σ).measurements,
      m.station_id = sid' ∧ m.measured_at_utc = t := by
  induction rs generalizing σ with
  | nil => exact h
  | cons r0 tl ih =>
    rw [List.foldl_cons]
    exact ih _ (key_present_applyDbOp σ _ sid' t h)

/-- Helper: after the sequence of measurement inserts of the transaction,
every incoming row has a stored row with its key. -/
theorem key_present_fold_rows (sid : String) (now : Int)
    (rs : List SourceMeasurement) (σ : Store) (r : SourceMeasurement) (hr : r ∈ rs) :
    ∃ m ∈ (rs.foldl
        (fun acc x => applyDbOp acc (DbOp.insertMeasurement (toMRow sid now x)))
        σ).measurements,
      m.station_id = sid ∧ m.measured_at_utc = r.measured_at_utc := by
  induction rs generalizing σ with
  | nil => cases hr
  | cons r0 tl ih =>
    rw [List.foldl_cons]
    rcases List.mem_cons.mp hr with rfl | hrt
    · refine key_present_fold_preserve sid now tl _ sid r.measured_at_utc ?_
      exact key_present_upsertMRow_self σ.measurements (toMRow sid now r)
    · exact ih _ hrt

/-- C4: the two writes of `upsert_measurements` form one atomic unit.  Over
the connection model in which writes touch only the pending view and the
single trailing commit publishes it, the observable store after any prefix
of the transaction is either the untouched pre-state or the fully committed
post-state; when execution stops anywhere before the commit — which is what
the code does when a statement raises, closing the connection without
committing — the observable store is exactly the pre-state; and the
committed post-state holds both the requested fetch-window row and a stored
row for the key of every incoming measurement row. -/
theorem c4_upsert_atomic (st : Store) (sid : String)
    (rows : List SourceMeasurement) (s e now : Int) :
    (∀ k : Nat,
      (runConn ⟨st, st⟩ ((upsertStmts sid rows s e now).take k)).db = st ∨
      (runConn ⟨st, st⟩ ((upsertStmts sid rows s e now).take k)).db =
        upsert_measurements st sid rows s e now) ∧
    (∀ k : Nat, k ≤ (upsertOps sid rows s e now).length →
      (runConn ⟨st, st⟩ ((upsertStmts sid rows s e now).take k)).db = st) ∧
    (⟨sid, s, e, now⟩ : WRow) ∈
      (upsert_measurements st sid rows s e now).fetch_windows ∧
    (∀ r ∈ rows,
      ∃ m ∈ (upsert_measurements st sid rows s e now).measurements,
        m.station_id = sid ∧ m.measured_at_utc = r.measured_at_utc) := by
  have hpre : ∀ k : Nat, k ≤ (upsertOps sid rows s e now).length →
      (runConn ⟨st, st⟩ ((upsertStmts sid rows s e now).take k)).db = st := by
    intro k hk
    unfold upsertStmts
    rw [List.take_append_of_le_length (by simpa using hk), ← List.map_take,
      runConn_writes]
  refine ⟨?_, hpre, ?_, ?_⟩
  · intro k
    by_cases hk : k ≤ (upsertOps sid rows s e now).length
    · exact Or.inl (hpre k hk)
    · right
      have hlen : (upsertStmts sid rows s e now).length ≤ k := by
        unfold upsertStmts
        rw [List.length_append, List.length_map]
        simpa using Nat.succ_le_of_lt (Nat.lt_of_not_le hk)
      rw [List.take_of_length_le hlen]
      rfl
  · rw [upsert_measurements_eq_runOps, runOps_upsertOps_windows]
    exact mem_upsertWRow _ _
  · intro r hr
    rw [upsert_measurements_eq_runOps]
    unfold upsertOps runOps
    rw [List.foldl_append, List.foldl_map, List.foldl_cons, List.foldl_nil]
    exact key_present_applyDbOp _ _ sid r.measured_at_utc
      (key_present_fold_rows sid now rows st r hr)

/-- Helper: a sorted list without duplicates is strictly increasing. -/
theorem pairwise_lt_of_sorted_nodup {l : List Int}
    (hs : List.Pairwise (fun a b : Int => a ≤ b) l) (hn : l.Nodup) :
    List.Pairwise (fun a b : Int => a < b) l := by
  induction l with
  | nil => exact List.Pairwise.nil
  | cons a t ih =>
    rcases List.pairwise_cons.mp hs with ⟨ha, hs2⟩
    rcases List.nodup_cons.mp hn with ⟨hna, hn2⟩
    refine List.pairwise_cons.mpr ⟨?_, ih hs2 hn2⟩
    intro b hb
    exact lt_of_le_of_ne (ha b hb) (fun hab => hna (hab ▸ hb))

/-- C8: under every non-RAW granularity, the key of the bucket each row
joins is its UTC instant converted to the local calendar and truncated —
the hour, day or month start, spelled out field by field in the final
conjunct — and each emitted bucket displays exactly the absolute instant
that its truncated local bucket start converts back to: every row has a
bucket displaying the instant of its truncated local time, every bucket
displays such an instant for one of the rows, and the buckets are emitted
in strictly ascending key order. -/
theorem c8_local_calendar_bucketing (tz : TZ) (A : List (Option ℚ) → Option ℚ)
    (g : TimeAggregation) (rows : List SourceMeasurement)
    (hg : g ≠ TimeAggregation.none) :
    (∀ r ∈ rows, ∃ b ∈ aggregate tz A g rows,
      b.measured_at_utc = tz.toInstant (truncateLocal g (tz.toLocal r.measured_at_utc))) ∧
    (∀ b ∈ aggregate tz A g rows, ∃ r ∈ rows,
      b.measured_at_utc = tz.toInstant (truncateLocal g (tz.toLocal r.measured_at_utc))) ∧
    List.Pairwise (fun b1 b2 : SourceMeasurement =>
      b1.measured_at_utc < b2.measured_at_utc) (aggregate tz A g rows) ∧
    (∀ d : LocalDT,
      ((truncateLocal TimeAggregation.hourly d).year = d.year ∧
       (truncateLocal TimeAggregation.hourly d).month = d.month ∧
       (truncateLocal TimeAggregation.hourly d).day = d.day ∧
       (truncateLocal TimeAggregation.hourly d).hour = d.hour ∧
       (truncateLocal TimeAggregation.hourly d).minute = 0 ∧
       (truncateLocal TimeAggregation.hourly d).second = 0 ∧
       (truncateLocal TimeAggregation.hourly d).microsecond = 0) ∧
      ((truncateLocal TimeAggregation.daily d).year = d.year ∧
       (truncateLocal TimeAggregation.daily d).month = d.month ∧
       (truncateLocal TimeAggregation.daily d).day = d.day ∧
       (truncateLocal TimeAggregation.daily d).hour = 0 ∧
       (truncateLocal TimeAggregation.daily d).minute = 0 ∧
       (truncateLocal TimeAggregation.daily d).second = 0 ∧
       (truncateLocal TimeAggregation.daily d).microsecond = 0) ∧
      ((truncateLocal TimeAggregation.monthly d).year = d.year ∧
       (truncateLocal TimeAggregation.monthly d).month = d.month ∧
       (truncateLocal TimeAggregation.monthly d).day = 1 ∧
       (truncateLocal TimeAggregation.monthly d).hour = 0 ∧
       (truncateLocal TimeAggregation.monthly d).minute = 0 ∧
       (truncateLocal TimeAggregation.monthly d).second = 0 ∧
       (truncateLocal TimeAggregation.monthly d).microsecond = 0)) := by
  have hagg : aggregate tz A g rows =
      (((rows.map (keyInstant tz g)).dedup).insertionSort (· ≤ ·)).map
        (bucketOf tz A g rows) := by
    unfold aggregate
    rw [if_neg hg]
  refine ⟨?_, ?_, ?_, ?_⟩
  · intro r hr
    refine ⟨bucketOf tz A g rows (keyInstant tz g r), ?_, rfl⟩
    rw [hagg]
    exact List.mem_map.mpr ⟨keyInstant tz g r,
      (List.mem_insertionSort _).mpr
        (List.mem_dedup.mpr (List.mem_map.mpr ⟨r, hr, rfl⟩)), rfl⟩
  · intro b hb
    rw [hagg] at hb
    obtain ⟨k, hk, rfl⟩ := List.mem_map.mp hb
    have hk2 : k ∈ rows.map (keyInstant tz g) :=
      List.mem_dedup.mp ((List.mem_insertionSort _).mp hk)
    obtain ⟨r, hr, hkr⟩ := List.mem_map.mp hk2
    refine ⟨r, hr, ?_⟩
    rw [← hkr]
    rfl
  · rw [hagg, List.pairwise_map]
    have hs : List.Pairwise (fun a b : Int => a ≤ b)
        (((rows.map (keyInstant tz g)).dedup).insertionSort (· ≤ ·)) :=
      List.sorted_insertionSort _ _
    have hn : (((rows.map (keyInstant tz g)).dedup).insertionSort (· ≤ ·)).Nodup :=
      ((List.perm_insertionSort _ _).nodup_iff).mpr (List.nodup_dedup _)
    exact (pairwise_lt_of_sorted_nodup hs hn).imp (fun h => h)
  · intro d
    exact ⟨⟨rfl, rfl, rfl, rfl, rfl, rfl, rfl⟩, ⟨rfl, rfl, rfl, rfl, rfl, rfl, rfl⟩,
      ⟨rfl, rfl, rfl, rfl, rfl, rfl, rfl⟩⟩

/-- C8 witness: the theorem applied at hourly granularity to a concrete
timezone and a concrete one-row list. -/
theorem c8_local_calendar_bucketing_witness :
    (TimeAggregation.hourly ≠ TimeAggregation.none) ∧
    ((∀ r ∈ [(⟨"X", 30, Option.none, Option.none, Option.none, Option.none,
        Option.none, Option.none, Option.none⟩ : SourceMeasurement)],
      ∃ b ∈ aggregate ⟨fun _ => default, fun _ => 0⟩ (fun _ => Option.none)
        TimeAggregation.hourly
        [⟨"X", 30, Option.none, Option.none, Option.none, Option.none,
          Option.none, Option.none, Option.none⟩],
      b.measured_at_utc = TZ.toInstant ⟨fun _ => default, fun _ => 0⟩
        (truncateLocal TimeAggregation.hourly
          (TZ.toLocal ⟨fun _ => default, fun _ => 0⟩ r.measured_at_utc))) ∧
    (∀ b ∈ aggregate ⟨fun _ => default, fun _ => 0⟩ (fun _ => Option.none)
        TimeAggregation.hourly
        [⟨"X", 30, Option.none, Option.none, Option.none, Option.none,
          Option.none, Option.none, Option.none⟩],
      ∃ r ∈ [(⟨"X", 30, Option.none, Option.none, Option.none, Option.none,
        Option.none, Option.none, Option.none⟩ : SourceMeasurement)],
      b.measured_at_utc = TZ.toInstant ⟨fun _ => default, fun _ => 0⟩
        (truncateLocal TimeAggregation.hourly
          (TZ.toLocal ⟨fun _ => default, fun _ => 0⟩ r.measured_at_utc))) ∧
    List.Pairwise (fun b1 b2 : SourceMeasurement =>
      b1.measured_at_utc < b2.measured_at_utc)
      (aggregate ⟨fun _ => default, fun _ => 0⟩ (fun _ => Option.none)
        TimeAggregation.hourly
        [⟨"X", 30, Option.none, Option.none, Option.none, Option.none,
          Option.none, Option.none, Option.none⟩]) ∧
    (∀ d : LocalDT,
      ((truncateLocal TimeAggregation.hourly d).year = d.year ∧
       (truncateLocal TimeAggregation.hourly d).month = d.month ∧
       (truncateLocal TimeAggregation.hourly d).day = d.day ∧
       (truncateLocal TimeAggregation.hourly d).hour = d.hour ∧
       (truncateLocal TimeAggregation.hourly d).minute = 0 ∧
       (truncateLocal TimeAggregation.hourly d).second = 0 ∧
       (truncateLocal TimeAggregation.hourly d).microsecond = 0) ∧
      ((truncateLocal TimeAggregation.daily d).year = d.year ∧
       (truncateLocal TimeAggregation.daily d).month = d.month ∧
       (truncateLocal TimeAggregation.daily d).day = d.day ∧
       (truncateLocal TimeAggregation.daily d).hour = 0 ∧
       (truncateLocal TimeAggregation.daily d).minute = 0 ∧
       (truncateLocal TimeAggregation.daily d).second = 0 ∧
       (truncateLocal TimeAggregation.daily d).microsecond = 0) ∧
      ((truncateLocal TimeAggregation.monthly d).year = d.year ∧
       (truncateLocal TimeAggregation.monthly d).month = d.month ∧
       (truncateLocal TimeAggregation.monthly d).day = 1 ∧
       (truncateLocal TimeAggregation.monthly d).hour = 0 ∧
       (truncateLocal TimeAggregation.monthly d).minute = 0 ∧
       (truncateLocal TimeAggregation.monthly d).second = 0 ∧
       (truncateLocal TimeAggregation.monthly d).microsecond = 0))) :=
  ⟨by decide, c8_local_calendar_bucketing ⟨fun _ => default, fun _ => 0⟩
    (fun _ => Option.none) TimeAggregation.hourly
    [⟨"X", 30, Option.none, Option.none, Option.none, Option.none,
      Option.none, Option.none, Option.none⟩] (by decide)⟩

end AntarcticAnalytics
